import Mathlib

/-!
Shallow embedding of `src/scripts/generate_synthetic_data.py`, a synthetic-data
generator for a cash-drag nudge quasi-experiment.

Modelling conventions:
* Machine floats that only feed Bernoulli probabilities strictly inside (0,1)
  are abstracted: each Bernoulli draw `rng.random(n) < p` becomes an abstract
  `Bool` input.  Where the code forces a probability to be exactly zero (the
  `active / not-invested / not-closed` mask multiplied into `p` at line 228),
  the mask is kept explicitly, since `u < 0` is always false for `u ∈ [0,1)`.
* Real-valued quantities that land in output columns are modelled over `ℚ`.
* numpy's `-1` sentinel for `first_exposure_month` is kept as an `Int`;
  `NaN` sentinels in output columns become `Option`.
* The per-account state loop (lines 178-299) is vectorised in the source but
  every operation is elementwise, so it is embedded account-by-account: one
  account's trajectory is a fold of a step function over months `1..n_months`.
-/

namespace CashDrag

/-- The four regions used by `build_accounts` / `build_campaigns`. -/
inductive Region where
  | north
  | south
  | east
  | west
deriving DecidableEq, Repr

/-- The three nudge channels. -/
inductive Channel where
  | email
  | sms
  | inapp
deriving DecidableEq, Repr

/-- `Config` dataclass (lines 36-47).  The rate parameters only enter through
Bernoulli probabilities strictly inside (0,1) (defaults 0.001, 0.03, 0.05,
0.02, 0.01), so they are absorbed into the abstract draw streams; the fields
kept here are those read outside of a probability. -/
structure Config where
  seed : ℤ
  n_accounts : ℕ
  n_months : ℕ
  rollover_start : ℤ
  rollover_end : ℤ
deriving DecidableEq, Repr

/-- Region base start month of a campaign, `region_start` dict (line 95). -/
def regionStart : Region → ℤ
  | .north => 4
  | .south => 7
  | .east => 10
  | .west => 13

/-- `channel_offset` dict (line 96). -/
def channelOffset : Channel → ℤ
  | .email => 0
  | .sms => 1
  | .inapp => 2

/-- `channel_intensity` dict (line 97). -/
def channelIntensity : Channel → ℤ
  | .email => 1
  | .sms => 2
  | .inapp => 1

/-- Loop order of `build_campaigns`: regions outer (line 105). -/
def regionsList : List Region := [.north, .south, .east, .west]

/-- Loop order of `build_campaigns`: channels inner (line 106). -/
def channelsList : List Channel := [.email, .sms, .inapp]

/-- One row of the campaign table (lines 111-121).  The
`eligibility_rule` column is a constant string and is omitted. -/
structure Wave where
  nudge_wave_id : ℕ
  channel : Channel
  region : Region
  start_month : ℤ
  end_month : ℤ
  intensity : ℤ
deriving DecidableEq, Repr

/-- `wave_id` counter of the loop in `build_campaigns`: ids are assigned
region-major, channel-minor, starting from 1 (lines 100, 126). -/
def waveId : Region → Channel → ℕ
  | .north, .email => 1
  | .north, .sms => 2
  | .north, .inapp => 3
  | .south, .email => 4
  | .south, .sms => 5
  | .south, .inapp => 6
  | .east, .email => 7
  | .east, .sms => 8
  | .east, .inapp => 9
  | .west, .email => 10
  | .west, .sms => 11
  | .west, .inapp => 12

/-- The campaign row built for a (region, channel) pair (lines 107-121):
start = region base + channel offset, end = min(start + 12, n_months). -/
def mkWave (cfg : Config) (r : Region) (c : Channel) : Wave :=
  { nudge_wave_id := waveId r c
  , channel := c
  , region := r
  , start_month := regionStart r + channelOffset c
  , end_month := min (regionStart r + channelOffset c + 12) (cfg.n_months : ℤ)
  , intensity := channelIntensity c }

/-- `build_campaigns` (lines 93-134), the list part: the double loop over
regions and channels, appending one row per pair. -/
def build_campaigns (cfg : Config) : List Wave :=
  regionsList.flatMap fun r => channelsList.map fun c => mkWave cfg r c

/-- The three lookup maps returned by `build_campaigns` (lines 101-103,
123-125), keyed by channel then region. -/
structure CampaignMaps where
  start : Channel → Region → ℤ
  endMonth : Channel → Region → ℤ
  wave : Channel → Region → ℕ

/-- `maps` as filled by the loop of `build_campaigns` (lines 123-125): the
same start/end/wave values that go into the table rows. -/
def campaignMaps (cfg : Config) : CampaignMaps :=
  { start := fun c r => regionStart r + channelOffset c
  , endMonth := fun c r => min (regionStart r + channelOffset c + 12) (cfg.n_months : ℤ)
  , wave := fun c r => waveId r c }

/-- The raw random material drawn for one account in `build_accounts`
(lines 50-72).  Distribution draws whose exact value lands in a column are
kept (`ℚ` for reals, `Bool` for binomial(1,p), categorical values directly);
`raw_balance` is the lognormal draw before clipping (line 54). -/
structure AccountDraw where
  rollover_month : ℤ
  raw_balance : ℚ
  age_band : String
  tenure_band : String
  risk_tolerance : String
  engagement : ℚ
  advisor_flag : Bool
  region : Region
  contactable_email : Bool
  contactable_sms : Bool
  preferred_channel : Channel
  account_fe : ℚ
deriving DecidableEq, Repr

/-- One row of the accounts table (lines 74-90). -/
structure Account where
  account_id : ℕ
  rollover_month : ℤ
  baseline_balance : ℚ
  age_band : String
  tenure_band : String
  risk_tolerance : String
  digital_engagement_score : ℚ
  advisor_flag : Bool
  region : Region
  contactable_email : Bool
  contactable_sms : Bool
  preferred_channel : Channel
  account_fe : ℚ
deriving DecidableEq, Repr

/-- `build_accounts` (lines 50-90): `account_id = 1..n_accounts` (line 51),
`baseline_balance = clip(lognormal draw, 1000, 500000)` (line 55), all other
columns taken directly from their distribution draws. -/
def build_accounts (g : ℕ → AccountDraw) (cfg : Config) : List Account :=
  (List.range cfg.n_accounts).map fun i =>
    let d := g i
    { account_id := i + 1
    , rollover_month := d.rollover_month
    , baseline_balance := max 1000 (min d.raw_balance 500000)
    , age_band := d.age_band
    , tenure_band := d.tenure_band
    , risk_tolerance := d.risk_tolerance
    , digital_engagement_score := d.engagement
    , advisor_flag := d.advisor_flag
    , region := d.region
    , contactable_email := d.contactable_email
    , contactable_sms := d.contactable_sms
    , preferred_channel := d.preferred_channel
    , account_fe := d.account_fe }

/-- The per-account Bernoulli/real draws consumed in one month of the panel
loop (lines 189-256), in draw order.  Each `Bool` abstracts a comparison
`rng.random(n) < p` whose probability `p` is strictly inside (0,1):
`p_assign = 0.05 + 0.10*engagement + 0.05*(balance>50000)` (line 183), the
clipped open probabilities (lines 193-195), `contam_rate = 0.03` (lines
202-204), `logistic(logit + treat_effect)` (line 227; the zero mask of line
228 is modelled explicitly in the step), `label_noise_rate = 0.01` (line
234), `close_rate = 0.001` (line 248) and the missingness rates (lines 252,
255).  `allocation_rate` is the `beta(5,2)` draw (line 237). -/
structure MonthDraws where
  assign_email : Bool
  assign_sms : Bool
  assign_inapp : Bool
  open_email : Bool
  open_sms : Bool
  open_inapp : Bool
  contam_email : Bool
  contam_sms : Bool
  contam_inapp : Bool
  invest : Bool
  noise : Bool
  allocation_rate : ℚ
  close : Bool
  missing_engagement : Bool
  missing_market : Bool
deriving DecidableEq, Repr

/-- The carried per-account state of the panel loop (lines 171-174):
`invested_status` and `account_closed` start false, `first_exposure_month`
starts at the sentinel `-1`. -/
structure PanelState where
  invested_status : Bool
  account_closed : Bool
  first_exposure_month : ℤ
deriving DecidableEq, Repr

/-- Initial state (lines 172-174). -/
def initState : PanelState :=
  { invested_status := false, account_closed := false, first_exposure_month := -1 }

/-- `np.tile` of the seasonality template, scaled by 0.10 (lines 167-169);
month `m` is 1-based, so entry `(m-1) % 12` of the template applies. -/
def seasonalityTemplate : List ℚ :=
  [2/10, 1/10, 5/100, 0, -(5/100), 0, 5/100, 5/100, 0, 5/100, 1/10, 2/10]

/-- `seasonality[m-1]` for 1-based month `m`. -/
def seasonality (m : ℕ) : ℚ :=
  (seasonalityTemplate.getD ((m - 1) % 12) 0) * (1/10)

/-- One row of the panel table: the DataFrame columns of lines 262-296.
Int 0/1 columns are `Bool`; NaN-able columns are `Option`. -/
structure MonthRecord where
  account_id : ℕ
  calendar_month : ℕ
  months_since_rollover : ℤ
  active_flag : Bool
  eligible_flag : Bool
  market_return : ℚ
  seasonality_index : ℚ
  nudge_email : Bool
  nudge_sms : Bool
  nudge_inapp : Bool
  exposure_email : Bool
  exposure_sms : Bool
  exposure_inapp : Bool
  email_wave_id : ℕ
  sms_wave_id : ℕ
  inapp_wave_id : ℕ
  treatment_any : Bool
  treatment_intensity : ℕ
  first_exposure_month : ℤ
  event_time : Option ℤ
  treated : Bool
  post : Bool
  invested_true : Bool
  invested_flag : Bool
  invested_status : Bool
  invest_amount : ℚ
  account_closed : Bool
  missing_engagement : Bool
  engagement_obs : Option ℚ
  missing_market_return : Bool
  market_return_obs : Option ℚ
deriving DecidableEq, Repr

/-- One iteration of the month loop of `generate_panel` (lines 178-296) for a
single account: computes the month-`m` record and the updated carried state.
`mkt m` is the month-`m` market return draw (line 166, shared across
accounts). -/
def panelStep (maps : CampaignMaps) (a : Account) (mkt : ℕ → ℚ)
    (s : PanelState) (m : ℕ) (d : MonthDraws) : MonthRecord × PanelState :=
  let msr : ℤ := (m : ℤ) - a.rollover_month
  let active : Bool := decide (0 ≤ msr)
  let eligible : Bool :=
    active && decide (1 ≤ msr) && decide (msr ≤ 6)
      && !s.invested_status && !s.account_closed
  let email_active : Bool :=
    decide (maps.start .email a.region ≤ (m : ℤ))
      && decide ((m : ℤ) ≤ maps.endMonth .email a.region)
  let sms_active : Bool :=
    decide (maps.start .sms a.region ≤ (m : ℤ))
      && decide ((m : ℤ) ≤ maps.endMonth .sms a.region)
  let inapp_active : Bool :=
    decide (maps.start .inapp a.region ≤ (m : ℤ))
      && decide ((m : ℤ) ≤ maps.endMonth .inapp a.region)
  let email_assign : Bool := eligible && a.contactable_email && email_active && d.assign_email
  let sms_assign : Bool := eligible && a.contactable_sms && sms_active && d.assign_sms
  let inapp_assign : Bool := eligible && inapp_active && d.assign_inapp
  let exposure_email : Bool :=
    (email_assign && d.open_email) || (eligible && !email_assign && d.contam_email)
  let exposure_sms : Bool :=
    (sms_assign && d.open_sms) || (eligible && !sms_assign && d.contam_sms)
  let exposure_inapp : Bool :=
    (inapp_assign && d.open_inapp) || (eligible && !inapp_assign && d.contam_inapp)
  let n_exposed : ℕ :=
    (cond exposure_email 1 0) + (cond exposure_sms 1 0) + (cond exposure_inapp 1 0)
  let invest_true : Bool :=
    d.invest && active && !s.invested_status && !s.account_closed
  let invested_flag : Bool := if d.noise then !invest_true else invest_true
  let invest_amount : ℚ :=
    if invest_true then a.baseline_balance * d.allocation_rate else 0
  let newly_exposed : Bool := decide (0 < n_exposed) && decide (s.first_exposure_month < 0)
  let fem : ℤ := if newly_exposed then (m : ℤ) else s.first_exposure_month
  let invested_status : Bool := s.invested_status || invest_true
  let closed_now : Bool := !s.account_closed && d.close
  let account_closed : Bool := s.account_closed || closed_now
  let engagement_obs : Option ℚ :=
    if d.missing_engagement then none else some a.digital_engagement_score
  let market_return_obs : Option ℚ :=
    if d.missing_market then none else some (mkt m)
  let event_time : Option ℤ := if 0 ≤ fem then some ((m : ℤ) - fem) else none
  let treated : Bool := decide (0 ≤ fem)
  let post : Bool := decide (0 ≤ fem) && decide (fem ≤ (m : ℤ))
  ( { account_id := a.account_id
    , calendar_month := m
    , months_since_rollover := msr
    , active_flag := active
    , eligible_flag := eligible
    , market_return := mkt m
    , seasonality_index := seasonality m
    , nudge_email := email_assign
    , nudge_sms := sms_assign
    , nudge_inapp := inapp_assign
    , exposure_email := exposure_email
    , exposure_sms := exposure_sms
    , exposure_inapp := exposure_inapp
    , email_wave_id := maps.wave .email a.region
    , sms_wave_id := maps.wave .sms a.region
    , inapp_wave_id := maps.wave .inapp a.region
    , treatment_any := decide (0 < n_exposed)
    , treatment_intensity := n_exposed
    , first_exposure_month := fem
    , event_time := event_time
    , treated := treated
    , post := post
    , invested_true := invest_true
    , invested_flag := invested_flag
    , invested_status := invested_status
    , invest_amount := invest_amount
    , account_closed := account_closed
    , missing_engagement := d.missing_engagement
    , engagement_obs := engagement_obs
    , missing_market_return := d.missing_market
    , market_return_obs := market_return_obs }
  , { invested_status := invested_status
    , account_closed := account_closed
    , first_exposure_month := fem } )

/-- The month loop (line 178) for one account, starting at month `m` in state
`s` and running for `fuel` more months: emits one record per month. -/
def panelFrom (maps : CampaignMaps) (a : Account) (mkt : ℕ → ℚ)
    (d : ℕ → MonthDraws) (s : PanelState) (m : ℕ) : ℕ → List MonthRecord
  | 0 => []
  | fuel + 1 =>
    (panelStep maps a mkt s m (d m)).1 ::
      panelFrom maps a mkt d (panelStep maps a mkt s m (d m)).2 (m + 1) fuel

/-- One account's full trajectory in `generate_panel`: months `1..n_months`
from the initial state. -/
def accountPanel (maps : CampaignMaps) (a : Account) (mkt : ℕ → ℚ)
    (d : ℕ → MonthDraws) (nMonths : ℕ) : List MonthRecord :=
  panelFrom maps a mkt d initState 1 nMonths

/-- `generate_panel` (lines 137-301).  The source iterates months in the outer
loop over vectorised accounts; all per-account operations are elementwise, so
the panel is embedded as one trajectory per account (`d i` is the draw stream
of the `i`-th account).  The CSV row order (month-major) is a fixed
reordering of these rows and carries no additional information. -/
def generate_panel (maps : CampaignMaps) (accounts : List Account)
    (mkt : ℕ → ℚ) (d : ℕ → ℕ → MonthDraws) (nMonths : ℕ) :
    List (List MonthRecord) :=
  (accounts.zip (List.range accounts.length)).map fun p =>
    accountPanel maps p.1 mkt (d p.2) nMonths

/-- One row of the DiD-ready table: the column subset of lines 305-318. -/
structure DidRow where
  account_id : ℕ
  calendar_month : ℕ
  months_since_rollover : ℤ
  treated : Bool
  post : Bool
  event_time : Option ℤ
  treatment_any : Bool
  treatment_intensity : ℕ
  invested_flag : Bool
  invest_amount : ℚ
  active_flag : Bool
  eligible_flag : Bool
deriving DecidableEq, Repr

/-- Column projection of `build_did_ready` applied to one record. -/
def didRow (r : MonthRecord) : DidRow :=
  { account_id := r.account_id
  , calendar_month := r.calendar_month
  , months_since_rollover := r.months_since_rollover
  , treated := r.treated
  , post := r.post
  , event_time := r.event_time
  , treatment_any := r.treatment_any
  , treatment_intensity := r.treatment_intensity
  , invested_flag := r.invested_flag
  , invest_amount := r.invest_amount
  , active_flag := r.active_flag
  , eligible_flag := r.eligible_flag }

/-- `build_did_ready` (lines 304-319): pure projection of the panel. -/
def build_did_ready (panel : List (List MonthRecord)) : List (List DidRow) :=
  panel.map fun tr => tr.map didRow

/-- A reproducible random source: what `np.random.default_rng(seed)` yields,
as a function of the seed.  `main` seeds one generator with `cfg.seed` for
`build_accounts` (line 331) and `generate_panel` seeds a second with
`cfg.seed + 1` (line 138). -/
structure Rng where
  accountDraw : ℕ → AccountDraw
  marketDraw : ℕ → ℚ
  panelDraw : ℕ → ℕ → MonthDraws

/-- The four in-memory tables produced by one run of `main`. -/
structure Outputs where
  accounts : List Account
  campaigns : List Wave
  panel : List (List MonthRecord)
  did_ready : List (List DidRow)
deriving Repr

/-- The generation pipeline of `main` (lines 330-336): build the config,
seed the random source, generate accounts, campaigns, panel and DiD table.
`main` performs no validation of `args.accounts` / `args.months`
(lines 322-336): the parsed values go straight into `Config` and generation
starts immediately. -/
def runPipeline (g : ℤ → Rng) (cfg : Config) : Outputs :=
  let accounts := build_accounts (g cfg.seed).accountDraw cfg
  let campaigns := build_campaigns cfg
  let maps := campaignMaps cfg
  let panel := generate_panel maps accounts (g (cfg.seed + 1)).marketDraw
    (g (cfg.seed + 1)).panelDraw cfg.n_months
  { accounts := accounts
  , campaigns := campaigns
  , panel := panel
  , did_ready := build_did_ready panel }

/-! ### Infrastructure: the carried state after `k` iterations, and the record
emitted at each index of a trajectory. -/

/-- The carried state after running the month loop `k` times starting at
month `m` in state `s`. -/
def stateAfter (maps : CampaignMaps) (a : Account) (mkt : ℕ → ℚ)
    (d : ℕ → MonthDraws) (s : PanelState) (m : ℕ) : ℕ → PanelState
  | 0 => s
  | k + 1 => stateAfter maps a mkt d (panelStep maps a mkt s m (d m)).2 (m + 1) k

/-- The record emitted by the `k`-th iteration (0-based) of the loop started
at month `m` in state `s`: calendar month `m + k`. -/
def recordAt (maps : CampaignMaps) (a : Account) (mkt : ℕ → ℚ)
    (d : ℕ → MonthDraws) (s : PanelState) (m k : ℕ) : MonthRecord :=
  (panelStep maps a mkt (stateAfter maps a mkt d s m k) (m + k) (d (m + k))).1

/-! ### Concrete fixtures used to instantiate theorems on explicit inputs. -/

/-- A small concrete configuration (1 account, 5 months). -/
def cfgX : Config :=
  { seed := 42, n_accounts := 1, n_months := 5, rollover_start := 1, rollover_end := 12 }

/-- A concrete account: rolls over in month 1, region North, contactable. -/
def acctX : Account :=
  { account_id := 1
  , rollover_month := 1
  , baseline_balance := 1000
  , age_band := "18-34"
  , tenure_band := "0-2y"
  , risk_tolerance := "low"
  , digital_engagement_score := 1/2
  , advisor_flag := false
  , region := .north
  , contactable_email := true
  , contactable_sms := true
  , preferred_channel := .email
  , account_fe := 0 }

/-- A month with every Bernoulli draw failing. -/
def noDraws : MonthDraws :=
  { assign_email := false
  , assign_sms := false
  , assign_inapp := false
  , open_email := false
  , open_sms := false
  , open_inapp := false
  , contam_email := false
  , contam_sms := false
  , contam_inapp := false
  , invest := false
  , noise := false
  , allocation_rate := 1/2
  , close := false
  , missing_engagement := false
  , missing_market := false }

/-- Constant zero market-return stream. -/
def mktX : ℕ → ℚ := fun _ => 0

/-- Draw stream: the investment Bernoulli fires in month 2, nothing else. -/
def drawsInvest2 (m : ℕ) : MonthDraws :=
  if m = 2 then { noDraws with invest := true } else noDraws

/-- A month in which the email nudge is assigned and opened. -/
def drawsEmailOnly : MonthDraws :=
  { noDraws with assign_email := true, open_email := true }

/-- Draw stream: email assigned and opened in month 4, nothing else. -/
def drawsExpose4 (m : ℕ) : MonthDraws :=
  if m = 4 then drawsEmailOnly else noDraws

/-- A concrete account-generation draw. -/
def accountDrawX : AccountDraw :=
  { rollover_month := 1
  , raw_balance := 30000
  , age_band := "18-34"
  , tenure_band := "0-2y"
  , risk_tolerance := "low"
  , engagement := 1/2
  , advisor_flag := false
  , region := .north
  , contactable_email := true
  , contactable_sms := true
  , preferred_channel := .email
  , account_fe := 0 }

/-- A concrete seed-indexed random source. -/
def rngX : ℤ → Rng := fun _ =>
  { accountDraw := fun _ => accountDrawX
  , marketDraw := fun _ => 0
  , panelDraw := fun _ _ => noDraws }

/-- Record at index 1 (month 2) of the `drawsInvest2` run over 2 months. -/
def recInvX : MonthRecord :=
  recordAt (campaignMaps cfgX) acctX mktX drawsInvest2 initState 1 1

/-- Record at index 2 (month 3) of the `drawsExpose4` run. -/
def recE2 : MonthRecord :=
  recordAt (campaignMaps cfgX) acctX mktX drawsExpose4 initState 1 2

/-- Record at index 3 (month 4) of the `drawsExpose4` run. -/
def recE3 : MonthRecord :=
  recordAt (campaignMaps cfgX) acctX mktX drawsExpose4 initState 1 3

/-- Record at index 4 (month 5) of the `drawsExpose4` run. -/
def recE4 : MonthRecord :=
  recordAt (campaignMaps cfgX) acctX mktX drawsExpose4 initState 1 4

section PanelLemmas

variable (maps : CampaignMaps) (a : Account) (mkt : ℕ → ℚ) (d : ℕ → MonthDraws)

lemma stateAfter_succ (s : PanelState) (m k : ℕ) :
    stateAfter maps a mkt d s m (k + 1)
      = (panelStep maps a mkt (stateAfter maps a mkt d s m k) (m + k)
          (d (m + k))).2 := by
  induction k generalizing s m with
  | zero => simp [stateAfter]
  | succ k ih =>
      have h1 : m + 1 + k = m + (k + 1) := by omega
      calc stateAfter maps a mkt d s m (k + 1 + 1)
          = stateAfter maps a mkt d (panelStep maps a mkt s m (d m)).2 (m + 1) (k + 1) := rfl
        _ = (panelStep maps a mkt
              (stateAfter maps a mkt d (panelStep maps a mkt s m (d m)).2 (m + 1) k)
              (m + 1 + k) (d (m + 1 + k))).2 := ih _ _
        _ = _ := by rw [h1]; rfl

lemma stateAfter_add (s : PanelState) (m j k : ℕ) :
    stateAfter maps a mkt d s m (j + k)
      = stateAfter maps a mkt d (stateAfter maps a mkt d s m j) (m + j) k := by
  induction j generalizing s m with
  | zero => simp [stateAfter]
  | succ j ih =>
      have h1 : j + 1 + k = (j + k) + 1 := by omega
      have h2 : m + (j + 1) = m + 1 + j := by omega
      rw [h1]
      show stateAfter maps a mkt d (panelStep maps a mkt s m (d m)).2 (m + 1) (j + k) = _
      rw [ih, h2]
      rfl

lemma panelFrom_get? (fuel : ℕ) :
    ∀ (s : PanelState) (m k : ℕ),
      (panelFrom maps a mkt d s m fuel).get? k
        = if k < fuel then some (recordAt maps a mkt d s m k) else none := by
  induction fuel with
  | zero => intro s m k; simp [panelFrom]
  | succ fuel ih =>
      intro s m k
      cases k with
      | zero => simp [panelFrom, recordAt, stateAfter]
      | succ k =>
          have h1 : m + 1 + k = m + (k + 1) := by omega
          simp only [panelFrom, List.get?]
          rw [ih]
          rcases Nat.lt_or_ge k fuel with h | h
          · simp only [h, if_pos, Nat.succ_lt_succ h, recordAt]
            rw [show stateAfter maps a mkt d (panelStep maps a mkt s m (d m)).2 (m + 1) k
                  = stateAfter maps a mkt d s m (k + 1) from rfl, h1]
          · have : ¬ k < fuel := by omega
            have : ¬ k + 1 < fuel + 1 := by omega
            simp [*]

/-! ### Step-level facts, read off the definition of `panelStep`. -/

lemma panelStep_record_invested_status (s : PanelState) (m : ℕ) (d0 : MonthDraws) :
    (panelStep maps a mkt s m d0).1.invested_status
      = (panelStep maps a mkt s m d0).2.invested_status := rfl

lemma panelStep_record_fem (s : PanelState) (m : ℕ) (d0 : MonthDraws) :
    (panelStep maps a mkt s m d0).1.first_exposure_month
      = (panelStep maps a mkt s m d0).2.first_exposure_month := rfl

lemma panelStep_state_invested (s : PanelState) (m : ℕ) (d0 : MonthDraws) :
    (panelStep maps a mkt s m d0).2.invested_status
      = (s.invested_status || (panelStep maps a mkt s m d0).1.invested_true) := rfl

lemma panelStep_calendar_month (s : PanelState) (m : ℕ) (d0 : MonthDraws) :
    (panelStep maps a mkt s m d0).1.calendar_month = m := rfl

lemma panelStep_event_time (s : PanelState) (m : ℕ) (d0 : MonthDraws) :
    (panelStep maps a mkt s m d0).1.event_time
      = (if 0 ≤ (panelStep maps a mkt s m d0).1.first_exposure_month
         then some ((m : ℤ) - (panelStep maps a mkt s m d0).1.first_exposure_month)
         else none) := rfl

lemma panelStep_treated (s : PanelState) (m : ℕ) (d0 : MonthDraws) :
    (panelStep maps a mkt s m d0).1.treated
      = decide (0 ≤ (panelStep maps a mkt s m d0).1.first_exposure_month) := rfl

lemma panelStep_post (s : PanelState) (m : ℕ) (d0 : MonthDraws) :
    (panelStep maps a mkt s m d0).1.post
      = (decide (0 ≤ (panelStep maps a mkt s m d0).1.first_exposure_month)
          && decide ((panelStep maps a mkt s m d0).1.first_exposure_month ≤ (m : ℤ))) := rfl

lemma panelStep_invest_amount (s : PanelState) (m : ℕ) (d0 : MonthDraws) :
    (panelStep maps a mkt s m d0).1.invest_amount
      = (if (panelStep maps a mkt s m d0).1.invested_true
         then a.baseline_balance * d0.allocation_rate else 0) := rfl

lemma panelStep_eligible_of_invested (s : PanelState) (m : ℕ) (d0 : MonthDraws)
    (h : s.invested_status = true) :
    (panelStep maps a mkt s m d0).1.eligible_flag = false := by
  simp [panelStep, h]

lemma panelStep_invested_mono (s : PanelState) (m : ℕ) (d0 : MonthDraws)
    (h : s.invested_status = true) :
    (panelStep maps a mkt s m d0).2.invested_status = true := by
  simp [panelStep, h]

/-- The state's new `first_exposure_month` in terms of the emitted record's
`treatment_any`: both are projections of the same `n_exposed` expression, so
this is definitional. -/
lemma panelStep_fem_treatment (s : PanelState) (m : ℕ) (d0 : MonthDraws) :
    (panelStep maps a mkt s m d0).2.first_exposure_month
      = (if ((panelStep maps a mkt s m d0).1.treatment_any
              && decide (s.first_exposure_month < 0)) = true
         then (m : ℤ) else s.first_exposure_month) := rfl

lemma panelStep_fem_of_set (s : PanelState) (m : ℕ) (d0 : MonthDraws)
    (h : 0 ≤ s.first_exposure_month) :
    (panelStep maps a mkt s m d0).2.first_exposure_month = s.first_exposure_month := by
  rw [panelStep_fem_treatment]
  have h' : ¬ s.first_exposure_month < 0 := by omega
  simp [h']

lemma panelStep_fem_cases (s : PanelState) (m : ℕ) (d0 : MonthDraws) :
    (panelStep maps a mkt s m d0).2.first_exposure_month = s.first_exposure_month
    ∨ ((panelStep maps a mkt s m d0).2.first_exposure_month = (m : ℤ)
        ∧ s.first_exposure_month < 0
        ∧ (panelStep maps a mkt s m d0).1.treatment_any = true) := by
  rw [panelStep_fem_treatment]
  by_cases hx : (panelStep maps a mkt s m d0).1.treatment_any = true
  · by_cases hf : s.first_exposure_month < 0
    · right; exact ⟨by rw [if_pos (by simp [hx, hf])], hf, hx⟩
    · left; rw [if_neg (by simp [hf])]
  · left; rw [if_neg (by simp [hx])]

lemma panelStep_fem_nonneg_iff (s : PanelState) (m : ℕ) (d0 : MonthDraws) :
    0 ≤ (panelStep maps a mkt s m d0).2.first_exposure_month
      ↔ (0 ≤ s.first_exposure_month ∨ (panelStep maps a mkt s m d0).1.treatment_any = true) := by
  rw [panelStep_fem_treatment]
  by_cases hx : (panelStep maps a mkt s m d0).1.treatment_any = true
  · by_cases hf : s.first_exposure_month < 0
    · rw [if_pos (by simp [hx, hf])]
      constructor
      · intro _; exact Or.inr hx
      · intro _; exact Int.ofNat_nonneg m
    · rw [if_neg (by simp [hf])]
      constructor
      · exact fun h => Or.inl h
      · intro _; omega
  · rw [if_neg (by simp [hx])]
    constructor
    · exact fun h => Or.inl h
    · rintro (h | h)
      · exact h
      · exact absurd h hx

lemma panelStep_fem_le (s : PanelState) (m : ℕ) (d0 : MonthDraws)
    (h : s.first_exposure_month < (m : ℤ)) :
    (panelStep maps a mkt s m d0).2.first_exposure_month ≤ (m : ℤ) := by
  rcases panelStep_fem_cases maps a mkt s m d0 with hc | ⟨hc, _, _⟩ <;> omega

/-! ### Trajectory-level invariants. -/

lemma stateAfter_invested_mono (k : ℕ) :
    ∀ (s : PanelState) (m : ℕ), s.invested_status = true →
      (stateAfter maps a mkt d s m k).invested_status = true := by
  induction k with
  | zero => intro s m h; simpa [stateAfter] using h
  | succ k ih =>
      intro s m h
      exact ih _ _ (panelStep_invested_mono maps a mkt s m (d m) h)

lemma stateAfter_fem_set (k : ℕ) :
    ∀ (s : PanelState) (m : ℕ), 0 ≤ s.first_exposure_month →
      (stateAfter maps a mkt d s m k).first_exposure_month = s.first_exposure_month := by
  induction k with
  | zero => intro s m _; rfl
  | succ k ih =>
      intro s m h
      rw [show stateAfter maps a mkt d s m (k + 1)
            = stateAfter maps a mkt d (panelStep maps a mkt s m (d m)).2 (m + 1) k from rfl,
          ih _ _ (by rw [panelStep_fem_of_set maps a mkt s m (d m) h]; exact h),
          panelStep_fem_of_set maps a mkt s m (d m) h]

lemma stateAfter_fem_lt (k : ℕ) :
    ∀ (s : PanelState) (m : ℕ), s.first_exposure_month < (m : ℤ) →
      (stateAfter maps a mkt d s m k).first_exposure_month < ((m + k : ℕ) : ℤ) := by
  induction k with
  | zero => intro s m h; simpa using h
  | succ k ih =>
      intro s m h
      have hstep : (panelStep maps a mkt s m (d m)).2.first_exposure_month < ((m + 1 : ℕ) : ℤ) := by
        have := panelStep_fem_le maps a mkt s m (d m) h
        push_cast
        omega
      have := ih (panelStep maps a mkt s m (d m)).2 (m + 1) (by exact_mod_cast hstep)
      rw [show stateAfter maps a mkt d s m (k + 1)
            = stateAfter maps a mkt d (panelStep maps a mkt s m (d m)).2 (m + 1) k from rfl]
      have harith : ((m + 1 + k : ℕ) : ℤ) = ((m + (k + 1) : ℕ) : ℤ) := by push_cast; ring
      omega

lemma stateAfter_fem_nonneg_iff (k : ℕ) :
    ∀ (s : PanelState) (m : ℕ),
      (0 ≤ (stateAfter maps a mkt d s m k).first_exposure_month
        ↔ (0 ≤ s.first_exposure_month
            ∨ ∃ j < k, (recordAt maps a mkt d s m j).treatment_any = true)) := by
  induction k with
  | zero =>
      intro s m
      simp [stateAfter]
  | succ k ih =>
      intro s m
      rw [stateAfter_succ]
      rw [panelStep_fem_nonneg_iff]
      rw [ih]
      constructor
      · rintro ((h | ⟨j, hj, hr⟩) | h)
        · exact Or.inl h
        · exact Or.inr ⟨j, by omega, hr⟩
        · exact Or.inr ⟨k, by omega, h⟩
      · rintro (h | ⟨j, hj, hr⟩)
        · exact Or.inl (Or.inl h)
        · rcases Nat.lt_or_ge j k with hjk | hjk
          · exact Or.inl (Or.inr ⟨j, hjk, hr⟩)
          · have : j = k := by omega
            subst this
            exact Or.inr hr

end PanelLemmas

/-! ### Claim theorems. -/

/-- **C2.** The spec requires a non-positive account/month count to fail fast
before any generation begins, but `main` performs no validation: with a month
count of 0 the pipeline still builds the full 100-row accounts table and the
12-row campaign table, so generation proceeds and data is produced for an
invalid configuration. -/
theorem c2_generation_proceeds_without_validation (g : ℤ → Rng) :
    ((runPipeline g { seed := 42, n_accounts := 100, n_months := 0
                    , rollover_start := 1, rollover_end := 12 }).accounts.length = 100)
    ∧ ((runPipeline g { seed := 42, n_accounts := 100, n_months := 0
                      , rollover_start := 1, rollover_end := 12 }).campaigns.length = 12) := by
  constructor
  · simp [runPipeline, build_accounts]
  · rfl

/-- **C3.** For a fixed seed-indexed random source and fixed configuration,
two runs of the generator coincide: the accounts, campaigns, panel and
DiD-ready tables are a deterministic function of the random source and the
configuration, which are the only inputs of `runPipeline`. -/
theorem c3_pipeline_deterministic (g g' : ℤ → Rng) (cfg cfg' : Config)
    (hg : g = g') (hc : cfg = cfg') :
    runPipeline g cfg = runPipeline g' cfg' := by
  subst hg; subst hc; rfl

/-- Witness for C3: a concrete run equals itself, via the determinism
theorem. -/
theorem c3_witness : runPipeline rngX cfgX = runPipeline rngX cfgX :=
  c3_pipeline_deterministic rngX rngX cfgX cfgX rfl rfl

/-- **C6.** The observed `invested_flag` equals the true outcome except when
the label-noise draw fires, in which case it is its negation; and the carried
`invested_status` is updated by OR with the true outcome only — substituting
an arbitrary value for the noise draw leaves the updated status unchanged. -/
theorem c6_label_noise_reported_only (maps : CampaignMaps) (a : Account)
    (mkt : ℕ → ℚ) (s : PanelState) (m : ℕ) (d0 : MonthDraws) (b : Bool) :
    ((panelStep maps a mkt s m d0).1.invested_flag
        = if d0.noise then !(panelStep maps a mkt s m d0).1.invested_true
          else (panelStep maps a mkt s m d0).1.invested_true)
    ∧ ((panelStep maps a mkt s m d0).2.invested_status
        = (s.invested_status || (panelStep maps a mkt s m d0).1.invested_true))
    ∧ ((panelStep maps a mkt s m { d0 with noise := b }).2.invested_status
        = (panelStep maps a mkt s m d0).2.invested_status) :=
  ⟨rfl, rfl, rfl⟩

/-- **C7.** The campaign scheduler emits exactly one wave per
(region, channel) pair, each wave's start month is the region base offset
plus the channel offset, its end month is `min(start + 12, n_months)`, and
hence `end_month ≤ n_months`. -/
theorem c7_campaign_schedule (cfg : Config) :
    (∀ r c, ((build_campaigns cfg).countP
        (fun w => decide (w.region = r) && decide (w.channel = c))) = 1)
    ∧ ∀ w ∈ build_campaigns cfg,
        w.start_month = regionStart w.region + channelOffset w.channel
        ∧ w.end_month = min (w.start_month + 12) (cfg.n_months : ℤ)
        ∧ w.end_month ≤ (cfg.n_months : ℤ) := by
  constructor
  · intro r c
    cases r <;> cases c <;> rfl
  · intro w hw
    simp only [build_campaigns, regionsList, channelsList, List.flatMap_cons,
      List.map_cons, List.map_nil, List.flatMap_nil, List.cons_append,
      List.nil_append, List.mem_cons, List.not_mem_nil, or_false] at hw
    rcases hw with rfl | rfl | rfl | rfl | rfl | rfl | rfl | rfl | rfl | rfl | rfl | rfl <;>
      exact ⟨rfl, rfl, min_le_right _ _⟩

/-- Witness for C7 at a concrete configuration and wave. -/
theorem c7_witness :
    ((build_campaigns cfgX).countP
        (fun w => decide (w.region = Region.west) && decide (w.channel = Channel.inapp))) = 1
    ∧ (mkWave cfgX Region.west Channel.inapp).end_month ≤ (cfgX.n_months : ℤ) := by
  refine ⟨(c7_campaign_schedule cfgX).1 Region.west Channel.inapp, ?_⟩
  exact ((c7_campaign_schedule cfgX).2 (mkWave cfgX Region.west Channel.inapp) (by decide)).2.2

/-- **C9.** Exposure on any channel in a record implies `eligible_flag` is
true in that same record: both the assigned-and-opened branch and the
contamination branch of each channel's exposure require eligibility. -/
theorem c9_exposure_implies_eligible (maps : CampaignMaps) (a : Account)
    (mkt : ℕ → ℚ) (s : PanelState) (m : ℕ) (d0 : MonthDraws)
    (h : (panelStep maps a mkt s m d0).1.exposure_email = true
       ∨ (panelStep maps a mkt s m d0).1.exposure_sms = true
       ∨ (panelStep maps a mkt s m d0).1.exposure_inapp = true) :
    (panelStep maps a mkt s m d0).1.eligible_flag = true := by
  simp only [panelStep] at h ⊢
  rcases h with h | h | h <;>
    · simp only [Bool.or_eq_true, Bool.and_eq_true] at h ⊢
      tauto

/-- Witness for C9: a concrete month with an email exposure, and the
eligibility of that record concluded from the theorem. -/
theorem c9_witness :
    (panelStep (campaignMaps cfgX) acctX mktX initState 4 drawsEmailOnly).1.exposure_email = true
    ∧ (panelStep (campaignMaps cfgX) acctX mktX initState 4 drawsEmailOnly).1.eligible_flag
        = true := by
  have h : (panelStep (campaignMaps cfgX) acctX mktX initState 4
      drawsEmailOnly).1.exposure_email = true := by rfl
  exact ⟨h, c9_exposure_implies_eligible (campaignMaps cfgX) acctX mktX initState 4
    drawsEmailOnly (Or.inl h)⟩

/-- **C1, counterexample.** In the concrete run `drawsInvest2` the account is
eligible in month 2 and the investment draw fires that same month: the
month-2 record carries `invested_status = true` (status is recorded after the
update of line 245) together with `eligible_flag = true` (eligibility is
computed at line 181 from the pre-update status), refuting the claim that
`invested_status` true in a record forces `eligible_flag` false in that same
record. -/
theorem c1_counterexample :
    ((accountPanel (campaignMaps cfgX) acctX mktX drawsInvest2 2).get? 1).map
        (fun r => (r.invested_status, r.eligible_flag)) = some (true, true) := by
  rfl

/-- **C1 (amended).** If `invested_status` is true in the month-`m` record of
an account, then `eligible_flag` is false in every strictly later month's
record of that account (in the record of month `m` itself, `eligible_flag`
may still be true, since eligibility is computed before the investment
decision of that month). -/
theorem c1_invested_excludes_later_eligibility
    (maps : CampaignMaps) (a : Account) (mkt : ℕ → ℚ) (d : ℕ → MonthDraws)
    (N i j : ℕ) (ri rj : MonthRecord)
    (hij : i < j)
    (hi : (accountPanel maps a mkt d N).get? i = some ri)
    (hj : (accountPanel maps a mkt d N).get? j = some rj)
    (hinv : ri.invested_status = true) :
    rj.eligible_flag = false := by
  simp only [accountPanel, panelFrom_get?] at hi hj
  by_cases hiN : i < N
  case neg => simp [hiN] at hi
  by_cases hjN : j < N
  case neg => simp [hjN] at hj
  rw [if_pos hiN] at hi
  rw [if_pos hjN] at hj
  obtain rfl : ri = recordAt maps a mkt d initState 1 i := (Option.some.inj hi).symm
  obtain rfl : rj = recordAt maps a mkt d initState 1 j := (Option.some.inj hj).symm
  have h1 : (stateAfter maps a mkt d initState 1 (i + 1)).invested_status = true := by
    rw [stateAfter_succ]
    exact (panelStep_record_invested_status maps a mkt
      (stateAfter maps a mkt d initState 1 i) (1 + i) (d (1 + i))).symm.trans hinv
  have h2 : (stateAfter maps a mkt d initState 1 j).invested_status = true := by
    have hdecomp : j = (i + 1) + (j - (i + 1)) := by omega
    rw [hdecomp, stateAfter_add]
    exact stateAfter_invested_mono maps a mkt d (j - (i + 1)) _ _ h1
  exact panelStep_eligible_of_invested maps a mkt _ _ _ h2

/-- Witness for the amended C1: in the concrete run, the month-2 record has
`invested_status = true` and the month-3 record has `eligible_flag = false`,
concluded from the theorem. -/
theorem c1_witness :
    ∃ ri rj,
      (accountPanel (campaignMaps cfgX) acctX mktX drawsInvest2 3).get? 1 = some ri
      ∧ (accountPanel (campaignMaps cfgX) acctX mktX drawsInvest2 3).get? 2 = some rj
      ∧ ri.invested_status = true ∧ rj.eligible_flag = false := by
  refine ⟨_, _, rfl, rfl, rfl, ?_⟩
  exact c1_invested_excludes_later_eligibility (campaignMaps cfgX) acctX mktX drawsInvest2
    3 1 2 _ _ (by omega) rfl rfl rfl

/-- **C10.** In every panel record, `post` equals `treated`:
`first_exposure_month`, when set, is at most the record's calendar month, so
the extra condition `m ≥ first_exposure_month` in `post` is always satisfied
whenever `treated` is 1. -/
theorem c10_post_eq_treated
    (maps : CampaignMaps) (a : Account) (mkt : ℕ → ℚ) (d : ℕ → MonthDraws)
    (N i : ℕ) (r : MonthRecord)
    (hr : (accountPanel maps a mkt d N).get? i = some r) :
    r.post = r.treated := by
  simp only [accountPanel, panelFrom_get?] at hr
  by_cases hiN : i < N
  case neg => simp [hiN] at hr
  rw [if_pos hiN] at hr
  obtain rfl : r = recordAt maps a mkt d initState 1 i := (Option.some.inj hr).symm
  have hfem : (recordAt maps a mkt d initState 1 i).first_exposure_month
      = (stateAfter maps a mkt d initState 1 (i + 1)).first_exposure_month := by
    rw [stateAfter_succ]
    exact panelStep_record_fem maps a mkt _ _ _
  have hlt := stateAfter_fem_lt maps a mkt d (i + 1) initState 1 (by simp [initState])
  have hle : (recordAt maps a mkt d initState 1 i).first_exposure_month ≤ ((1 + i : ℕ) : ℤ) := by
    rw [hfem]
    push_cast at hlt ⊢
    omega
  rw [show recordAt maps a mkt d initState 1 i
        = (panelStep maps a mkt (stateAfter maps a mkt d initState 1 i) (1 + i) (d (1 + i))).1
      from rfl] at hle ⊢
  rw [panelStep_post, panelStep_treated, decide_eq_true hle, Bool.and_true]

/-- Witness for C10 at a concrete record of the `drawsExpose4` run. -/
theorem c10_witness :
    (accountPanel (campaignMaps cfgX) acctX mktX drawsExpose4 5).get? 2 = some recE2
    ∧ recE2.post = recE2.treated := by
  have hr : (accountPanel (campaignMaps cfgX) acctX mktX drawsExpose4 5).get? 2
      = some recE2 := rfl
  exact ⟨hr, c10_post_eq_treated (campaignMaps cfgX) acctX mktX drawsExpose4 5 2 recE2 hr⟩

/-- **C4.** In every panel record, `first_exposure_month` is set (≥ 0)
exactly when some earlier-or-equal record of the account shows an exposure
(`treatment_any`); when set, `event_time` equals the calendar month minus
`first_exposure_month`; when the account has never been exposed by that
month, `event_time` carries the missing sentinel. -/
theorem c4_event_time
    (maps : CampaignMaps) (a : Account) (mkt : ℕ → ℚ) (d : ℕ → MonthDraws)
    (N i : ℕ) (r : MonthRecord)
    (hr : (accountPanel maps a mkt d N).get? i = some r) :
    (0 ≤ r.first_exposure_month
        ↔ ∃ j ≤ i, ∃ rj, (accountPanel maps a mkt d N).get? j = some rj
            ∧ rj.treatment_any = true)
    ∧ (0 ≤ r.first_exposure_month
        → r.event_time = some ((r.calendar_month : ℤ) - r.first_exposure_month))
    ∧ (r.first_exposure_month < 0 → r.event_time = none) := by
  simp only [accountPanel, panelFrom_get?] at hr ⊢
  by_cases hiN : i < N
  case neg => simp [hiN] at hr
  rw [if_pos hiN] at hr
  obtain rfl : r = recordAt maps a mkt d initState 1 i := (Option.some.inj hr).symm
  have hfem : (recordAt maps a mkt d initState 1 i).first_exposure_month
      = (stateAfter maps a mkt d initState 1 (i + 1)).first_exposure_month := by
    rw [stateAfter_succ]
    exact panelStep_record_fem maps a mkt _ _ _
  refine ⟨?_, ?_, ?_⟩
  · rw [hfem, stateAfter_fem_nonneg_iff]
    constructor
    · rintro (h0 | ⟨j, hj, hrj⟩)
      · exact absurd h0 (by norm_num [initState])
      · refine ⟨j, by omega, recordAt maps a mkt d initState 1 j, ?_, hrj⟩
        rw [if_pos (by omega)]
    · rintro ⟨j, hji, rj, hrj, hany⟩
      by_cases hjN : j < N
      case neg => simp [hjN] at hrj
      rw [if_pos hjN] at hrj
      obtain rfl : rj = recordAt maps a mkt d initState 1 j := (Option.some.inj hrj).symm
      exact Or.inr ⟨j, by omega, hany⟩
  · intro hset
    rw [show recordAt maps a mkt d initState 1 i
          = (panelStep maps a mkt (stateAfter maps a mkt d initState 1 i) (1 + i)
              (d (1 + i))).1 from rfl] at hset ⊢
    rw [panelStep_event_time, if_pos hset, panelStep_calendar_month]
  · intro hunset
    rw [show recordAt maps a mkt d initState 1 i
          = (panelStep maps a mkt (stateAfter maps a mkt d initState 1 i) (1 + i)
              (d (1 + i))).1 from rfl] at hunset ⊢
    rw [panelStep_event_time, if_neg (by omega)]

/-- Witness for C4: in the `drawsExpose4` run the month-4 record (index 3)
has its first exposure that month, and `event_time = 4 - 4 = 0` as concluded
from the theorem. -/
theorem c4_witness :
    (accountPanel (campaignMaps cfgX) acctX mktX drawsExpose4 5).get? 3 = some recE3
    ∧ 0 ≤ recE3.first_exposure_month
    ∧ recE3.event_time = some ((recE3.calendar_month : ℤ) - recE3.first_exposure_month) := by
  have hr : (accountPanel (campaignMaps cfgX) acctX mktX drawsExpose4 5).get? 3
      = some recE3 := rfl
  have hset : 0 ≤ recE3.first_exposure_month := by decide
  exact ⟨hr, hset,
    (c4_event_time (campaignMaps cfgX) acctX mktX drawsExpose4 5 3 recE3 hr).2.1 hset⟩

/-- **C5.** A record's `invest_amount` is positive exactly when the true
(noise-free) outcome `invested_true` is set; when it is, the amount equals
`baseline_balance` times that month's allocation-fraction draw (which the
`beta(5,2)` distribution keeps in (0,1)), and otherwise it is exactly 0. -/
theorem c5_invest_amount
    (maps : CampaignMaps) (a : Account) (mkt : ℕ → ℚ) (d : ℕ → MonthDraws)
    (N i : ℕ) (r : MonthRecord)
    (hr : (accountPanel maps a mkt d N).get? i = some r)
    (hbal : 0 < a.baseline_balance)
    (halloc0 : 0 < (d (1 + i)).allocation_rate)
    (halloc1 : (d (1 + i)).allocation_rate < 1) :
    (0 < r.invest_amount ↔ r.invested_true = true)
    ∧ (r.invested_true = true
        → r.invest_amount = a.baseline_balance * (d (1 + i)).allocation_rate)
    ∧ (r.invested_true = false → r.invest_amount = 0) := by
  simp only [accountPanel, panelFrom_get?] at hr
  by_cases hiN : i < N
  case neg => simp [hiN] at hr
  rw [if_pos hiN] at hr
  obtain rfl : r = recordAt maps a mkt d initState 1 i := (Option.some.inj hr).symm
  rw [show recordAt maps a mkt d initState 1 i
        = (panelStep maps a mkt (stateAfter maps a mkt d initState 1 i) (1 + i)
            (d (1 + i))).1 from rfl]
  rw [panelStep_invest_amount]
  rcases hb : (panelStep maps a mkt (stateAfter maps a mkt d initState 1 i) (1 + i)
      (d (1 + i))).1.invested_true with _ | _
  · simp
  · simp
    exact mul_pos hbal halloc0

/-- Witness for C5: in the `drawsInvest2` run the month-2 record invests,
with amount `1000 * (1/2) = 500 > 0`, concluded from the theorem. -/
theorem c5_witness :
    (accountPanel (campaignMaps cfgX) acctX mktX drawsInvest2 2).get? 1 = some recInvX
    ∧ ((0 < recInvX.invest_amount ↔ recInvX.invested_true = true)
        ∧ (recInvX.invested_true = true
            → recInvX.invest_amount
                = acctX.baseline_balance * (drawsInvest2 (1 + 1)).allocation_rate)
        ∧ (recInvX.invested_true = false → recInvX.invest_amount = 0)) := by
  have hr : (accountPanel (campaignMaps cfgX) acctX mktX drawsInvest2 2).get? 1
      = some recInvX := rfl
  exact ⟨hr, c5_invest_amount (campaignMaps cfgX) acctX mktX drawsInvest2 2 1 recInvX hr
    (by norm_num [acctX]) (by norm_num [drawsInvest2, noDraws])
    (by norm_num [drawsInvest2, noDraws])⟩

/-- **C8.** `first_exposure_month` is assigned at most once per account: once
set (≥ 0) it is unchanged in every later record; it changes between
consecutive records only from unset to the new record's calendar month, and
only when that record shows an exposure; and the month-1 record leaves the
`-1` sentinel unless month 1 itself has an exposure, in which case it is 1. -/
theorem c8_first_exposure_set_once
    (maps : CampaignMaps) (a : Account) (mkt : ℕ → ℚ) (d : ℕ → MonthDraws) (N : ℕ) :
    (∀ i j ri rj, i ≤ j
      → (accountPanel maps a mkt d N).get? i = some ri
      → (accountPanel maps a mkt d N).get? j = some rj
      → 0 ≤ ri.first_exposure_month
      → rj.first_exposure_month = ri.first_exposure_month)
    ∧ (∀ i r r',
        (accountPanel maps a mkt d N).get? i = some r
      → (accountPanel maps a mkt d N).get? (i + 1) = some r'
      → r'.first_exposure_month ≠ r.first_exposure_month
      → r.first_exposure_month < 0 ∧ r'.treatment_any = true
          ∧ r'.first_exposure_month = ((i + 2 : ℕ) : ℤ))
    ∧ (∀ r, (accountPanel maps a mkt d N).get? 0 = some r
      → r.first_exposure_month ≠ -1
      → r.treatment_any = true ∧ r.first_exposure_month = 1) := by
  have hrec : ∀ k, (recordAt maps a mkt d initState 1 k).first_exposure_month
      = (stateAfter maps a mkt d initState 1 (k + 1)).first_exposure_month := by
    intro k
    rw [stateAfter_succ]
    exact panelStep_record_fem maps a mkt _ _ _
  refine ⟨?_, ?_, ?_⟩
  · intro i j ri rj hij hi hj hset
    simp only [accountPanel, panelFrom_get?] at hi hj
    by_cases hiN : i < N
    case neg => simp [hiN] at hi
    by_cases hjN : j < N
    case neg => simp [hjN] at hj
    rw [if_pos hiN] at hi
    rw [if_pos hjN] at hj
    obtain rfl : ri = recordAt maps a mkt d initState 1 i := (Option.some.inj hi).symm
    obtain rfl : rj = recordAt maps a mkt d initState 1 j := (Option.some.inj hj).symm
    rw [hrec] at hset ⊢
    rw [hrec]
    have hdecomp : j + 1 = (i + 1) + (j - i) := by omega
    rw [hdecomp, stateAfter_add]
    exact stateAfter_fem_set maps a mkt d (j - i) _ _ hset
  · intro i r r' hi hi' hne
    simp only [accountPanel, panelFrom_get?] at hi hi'
    by_cases hiN : i < N
    case neg => simp [hiN] at hi
    by_cases hiN' : i + 1 < N
    case neg => simp [hiN'] at hi'
    rw [if_pos hiN] at hi
    rw [if_pos hiN'] at hi'
    obtain rfl : r = recordAt maps a mkt d initState 1 i := (Option.some.inj hi).symm
    obtain rfl : r' = recordAt maps a mkt d initState 1 (i + 1) := (Option.some.inj hi').symm
    have hfemr : (recordAt maps a mkt d initState 1 i).first_exposure_month
        = (stateAfter maps a mkt d initState 1 (i + 1)).first_exposure_month := hrec i
    have hfemr' : (recordAt maps a mkt d initState 1 (i + 1)).first_exposure_month
        = (panelStep maps a mkt (stateAfter maps a mkt d initState 1 (i + 1)) (1 + (i + 1))
            (d (1 + (i + 1)))).2.first_exposure_month :=
      panelStep_record_fem maps a mkt _ _ _
    rcases panelStep_fem_cases maps a mkt (stateAfter maps a mkt d initState 1 (i + 1))
        (1 + (i + 1)) (d (1 + (i + 1))) with hc | ⟨hc1, hc2, hc3⟩
    · exact absurd (hfemr'.trans (hc.trans hfemr.symm)) hne
    · refine ⟨by rw [hfemr]; exact hc2, hc3, ?_⟩
      rw [hfemr', hc1]
      push_cast
      ring
  · intro r h0 hne
    simp only [accountPanel, panelFrom_get?] at h0
    by_cases h0N : 0 < N
    case neg => simp [h0N] at h0
    rw [if_pos h0N] at h0
    obtain rfl : r = recordAt maps a mkt d initState 1 0 := (Option.some.inj h0).symm
    rw [hrec] at hne ⊢
    rw [show stateAfter maps a mkt d initState 1 (0 + 1)
          = (panelStep maps a mkt initState 1 (d 1)).2 from stateAfter_succ maps a mkt d
            initState 1 0] at hne ⊢
    rcases panelStep_fem_cases maps a mkt initState 1 (d 1) with hc | ⟨hc1, hc2, hc3⟩
    · rw [hc] at hne
      exact absurd rfl hne
    · exact ⟨hc3, by rw [hc1]; norm_num⟩

/-- Witness for C8: in the `drawsExpose4` run, `first_exposure_month` is set
to 4 at index 3 and the index-4 record keeps the same value, concluded from
the persistence part of the theorem. -/
theorem c8_witness :
    (accountPanel (campaignMaps cfgX) acctX mktX drawsExpose4 5).get? 3 = some recE3
    ∧ (accountPanel (campaignMaps cfgX) acctX mktX drawsExpose4 5).get? 4 = some recE4
    ∧ 0 ≤ recE3.first_exposure_month
    ∧ recE4.first_exposure_month = recE3.first_exposure_month := by
  have hr3 : (accountPanel (campaignMaps cfgX) acctX mktX drawsExpose4 5).get? 3
      = some recE3 := rfl
  have hr4 : (accountPanel (campaignMaps cfgX) acctX mktX drawsExpose4 5).get? 4
      = some recE4 := rfl
  have hset : 0 ≤ recE3.first_exposure_month := by decide
  exact ⟨hr3, hr4, hset,
    (c8_first_exposure_set_once (campaignMaps cfgX) acctX mktX drawsExpose4 5).1
      3 4 recE3 recE4 (by omega) hr3 hr4 hset⟩

end CashDrag
